import Mathlib

/-! # The Game of Life (`game_of_life.cpp`)

A shallow embedding of the functions of `game_of_life.cpp` and the properties
established about them.

Conventions of the embedding

* `std::vector<std::vector<T>>` is a list of rows, `List (List T)`.
* `v[i][j]` on a vector is undefined behaviour when an index is out of range.
  Reads and writes are therefore total functions into `Option`: `get2` and
  `set2` return `none` for an index outside the row list or outside the row,
  and `none` propagates through the loops.
* `for (int i = 0; i < n; i++) body` is `forLoop n body`: the body is run for
  `i = 0, 1, ..., n-1` in this order on an explicit state, and stops at the
  first `none`.
* Loop counters and neighbour counts are never negative and are `Nat`; the
  index sums `i + k`, `j + l` with `k, l ∈ {-1, 0, 1}` are `Int`.
* The global `g_timestep` is passed in and returned explicitly, as an `Int`;
  the 32-bit range of `int` is not modelled.
* Text written to `std::cout` is a list of `Output` events.
-/

namespace GameOfLife

/-! ## Data model -/

/-- The type `std::vector<std::vector<bool>>`: rows of cells, `true` is alive. -/
abbrev Grid := List (List Bool)

/-- Read `a[i][j]`; `none` when `i` or `j` is out of range. -/
def get2 {α : Type} (a : List (List α)) (i j : Nat) : Option α :=
  match a[i]? with
  | none => none
  | some row => row[j]?

/-- Write `a[i][j] = v`; `none` when `i` or `j` is out of range. -/
def set2 {α : Type} (a : List (List α)) (i j : Nat) (v : α) : Option (List (List α)) :=
  match a[i]? with
  | none => none
  | some row => if j < row.length then some (a.set i (row.set j v)) else none

/-- The loop `for (int i = 0; i < n; i++) body(i)` over an explicit state. -/
def forLoop {σ : Type} (n : Nat) (body : Nat → σ → Option σ) (s : σ) : Option σ :=
  (List.range n).foldlM (fun s i => body i s) s

/-- The values taken by `k` and by `l` in `for (int k = -1; k <= 1; k++)`. -/
def offsets : List Int := [-1, 0, 1]

/-- One line of text written to `std::cout`. -/
inductive Output where
  /-- Written by `display_cells`: the label with the time step, then the rows. -/
  | cells (timestep : Int) (grid : Grid)
  /-- Written by `all_cells_dead`: "All cells are dead at time step: ...". -/
  | dead (timestep : Int)
  deriving DecidableEq

/-! ## `read_cells_grid_from_file` -/

/-- The inner loop of `read_cells_grid_from_file`: one character of a line. -/
def read_char (row : List Bool) (c : Char) : List Bool :=
  if c = '0' then row ++ [false]
  else if c = '1' then row ++ [true]
  else row

/-- The function `read_cells_grid_from_file`, on the lines that `std::getline`
yields for the file (no line at all when the file is empty or cannot be
opened). Every line appends one row; `push_back` appends at the end. -/
def read_cells_grid_from_file (lines : List String) : Grid :=
  lines.foldl (fun grid line => grid ++ [line.toList.foldl read_char []]) []

/-! ## `count_neighbors_num` -/

/-- The body of the `l` loop of `count_neighbors_num` for the cell `(i, j)` and
the offset `(k, l)`, acting on `neighbor_count`. -/
def count_step (grid : Grid) (row_num column_num i j : Nat) (k l : Int)
    (neighbor_count : Nat) : Option Nat :=
  if k = 0 ∧ l = 0 then some neighbor_count
  else
    let row_index : Int := (i : Int) + k
    let column_index : Int := (j : Int) + l
    if row_index < 0 ∨ row_index ≥ (row_num : Int) ∨ column_index < 0 ∨
        column_index ≥ (column_num : Int) then some neighbor_count
    else
      match get2 grid row_index.toNat column_index.toNat with
      | none => none
      | some cell => if cell then some (neighbor_count + 1) else some neighbor_count

/-- The `k` and `l` loops of `count_neighbors_num` for the cell `(i, j)`,
starting from `neighbor_count = 0`. -/
def neighbor_count (grid : Grid) (row_num column_num i j : Nat) : Option Nat :=
  offsets.foldlM (fun cnt k =>
    offsets.foldlM (fun cnt l => count_step grid row_num column_num i j k l cnt) cnt) 0

/-- The function `count_neighbors_num`. `grid[0].size()` is read first, which
is out of range for a grid without rows. -/
def count_neighbors_num (grid : Grid) : Option (List (List Nat)) :=
  match grid[0]? with
  | none => none
  | some row0 =>
    let row_num := grid.length
    let column_num := row0.length
    let neighbor_num := List.replicate row_num (List.replicate column_num 0)
    forLoop row_num (fun i neighbor_num =>
      forLoop column_num (fun j neighbor_num =>
        match neighbor_count grid row_num column_num i j with
        | none => none
        | some cnt => set2 neighbor_num i j cnt) neighbor_num) neighbor_num

/-! ## `all_cells_dead`, `display_cells` -/

/-- The inner loop of `all_cells_dead` over one row: `true` when the loop hits
`return false`, that is when some cell of the row is alive. -/
def row_has_live : List Bool → Bool
  | [] => false
  | cell :: rest => if cell then true else row_has_live rest

/-- The outer loop of `all_cells_dead`: `true` when some row hits `return false`. -/
def grid_has_live : Grid → Bool
  | [] => false
  | row :: rest => if row_has_live row then true else grid_has_live rest

/-- The function `all_cells_dead`: the returned value and the text written. -/
def all_cells_dead (grid : Grid) (g_timestep : Int) : Bool × List Output :=
  if grid_has_live grid then (false, []) else (true, [Output.dead g_timestep])

/-- The function `display_cells`: the text written. -/
def display_cells (grid : Grid) (g_timestep : Int) : List Output :=
  [Output.cells g_timestep grid]

/-! ## `update_cells` -/

/-- The body of the `j` loop of `update_cells`, acting on `new_grid`. -/
def update_step (grid : Grid) (neighbor_num : List (List Nat)) (i j : Nat)
    (new_grid : Grid) : Option Grid :=
  match get2 neighbor_num i j with
  | none => none
  | some n =>
    if n = 3 then set2 new_grid i j true
    else if n = 2 then
      match get2 grid i j with
      | none => none
      | some cell => set2 new_grid i j cell
    else set2 new_grid i j false

/-- The function `update_cells`: the new value of `grid` and of `g_timestep`.
Both loops run to `N = grid.size()`. -/
def update_cells (grid : Grid) (g_timestep : Int) : Option (Grid × Int) :=
  let N := grid.length
  match count_neighbors_num grid with
  | none => none
  | some neighbor_num =>
    match grid[0]? with
    | none => none
    | some row0 =>
      let new_grid := List.replicate grid.length (List.replicate row0.length false)
      match forLoop N (fun i new_grid =>
          forLoop N (fun j new_grid => update_step grid neighbor_num i j new_grid) new_grid)
          new_grid with
      | none => none
      | some new_grid => some (new_grid, g_timestep + 1)

/-- The grid after `n` calls of `update_cells`, with the counter. -/
def update_n : Nat → Grid → Int → Option (Grid × Int)
  | 0, grid, t => some (grid, t)
  | n + 1, grid, t =>
    match update_n n grid t with
    | none => none
    | some (grid1, t1) => update_cells grid1 t1

/-! ## `main` -/

/-- The `while (true)` loop of `main`, run for at most `fuel` iterations from
the given grid and counter. The result lists what is written to `std::cout`, in
order. Each output is paired with `updates`, the number of `update_cells` calls
completed when it is written; `updates` is bookkeeping of the model, the
program does not hold it. The loop stops on `break`, when the fuel is used up,
and when `update_cells` indexes out of range. -/
def main_loop : Nat → Grid → Int → Nat → List (Output × Nat)
  | 0, _, _, _ => []
  | fuel + 1, cells_grid, g_timestep, updates =>
    (display_cells cells_grid g_timestep).map (fun o => (o, updates)) ++
      match update_cells cells_grid g_timestep with
      | none => []
      | some (cells_grid1, g_timestep1) =>
        (all_cells_dead cells_grid1 g_timestep1).2.map (fun o => (o, updates + 1)) ++
          if (all_cells_dead cells_grid1 g_timestep1).1 then []
          else main_loop fuel cells_grid1 (g_timestep1 + 1) (updates + 1)

/-- The function `main` on the lines of `./cells_grid.txt`, for at most `fuel`
iterations of its loop; `g_timestep` is initialised to 0. -/
def main (fuel : Nat) (lines : List String) : List (Output × Nat) :=
  main_loop fuel (read_cells_grid_from_file lines) 0 0

/-! ## Specification vocabulary -/

/-- Number of rows, `grid.size()`. -/
def rows (grid : Grid) : Nat := grid.length

/-- Number of columns, `grid[0].size()` (0 for a grid without rows). -/
def cols (grid : Grid) : Nat := (grid.headD []).length

/-- A valid grid: at least one row, at least one column, every row as long as
the first one. -/
def valid (grid : Grid) : Prop :=
  0 < rows grid ∧ 0 < cols grid ∧ ∀ row ∈ grid, row.length = cols grid

instance (grid : Grid) : Decidable (valid grid) := by
  unfold valid; infer_instance

/-- A table with `R` rows, each of `C` entries. -/
def Rect {α : Type} (R C : Nat) (a : List (List α)) : Prop :=
  a.length = R ∧ ∀ row ∈ a, row.length = C

/-- The cell `(r, c)` is inside the grid and alive. -/
def alive_at (grid : Grid) (r c : Int) : Prop :=
  0 ≤ r ∧ r < (rows grid : Int) ∧ 0 ≤ c ∧ c < (cols grid : Int) ∧
    get2 grid r.toNat c.toNat = some true

instance (grid : Grid) (r c : Int) : Decidable (alive_at grid r c) := by
  unfold alive_at; infer_instance

/-- The number of live 8-neighbours of `(i, j)`, as the specification words it:
the offsets `(k, l)` with `k, l ∈ {-1, 0, 1}`, `(k, l) ≠ (0, 0)`, for which
`(i + k, j + l)` lies inside the grid and is alive. -/
def live_neighbours (grid : Grid) (i j : Nat) : Nat :=
  ((({-1, 0, 1} : Finset Int) ×ˢ ({-1, 0, 1} : Finset Int)).filter
    (fun p => p ≠ (0, 0) ∧ alive_at grid ((i : Int) + p.1) ((j : Int) + p.2))).card

/-- The transition rule of the specification: alive next when the count is 3,
or the count is 2 and the cell is alive now. -/
def rule (count : Nat) (cell : Bool) : Bool :=
  count == 3 || (count == 2 && cell)

/-- The reference next generation: same shape as `grid`, every cell derived
from the old grid only, by `rule` on its number of live neighbours. -/
def reference_next (grid : Grid) : Grid :=
  (List.range (rows grid)).map (fun i =>
    (List.range (cols grid)).map (fun j =>
      rule (live_neighbours grid i j) ((get2 grid i j).getD false)))

/-- Every cell of every row is dead. -/
def all_dead (grid : Grid) : Prop :=
  ∀ row ∈ grid, ∀ cell ∈ row, cell = false

instance (grid : Grid) : Decidable (all_dead grid) := by
  unfold all_dead; infer_instance

/-- The number of characters of a line that are `0` or `1`. -/
def digit_count (line : String) : Nat :=
  (line.toList.filter (fun c => c = '0' ∨ c = '1')).length

/-- The time step printed in an output. -/
def Output.timestep : Output → Int
  | Output.cells t _ => t
  | Output.dead t => t

/-- The row that the specification assigns to a line: every character other
than `0` and `1` is dropped, `0` is dead and `1` is alive, in order. -/
def row_of_line (line : String) : List Bool :=
  (line.toList.filter (fun c => c = '0' ∨ c = '1')).map (fun c => decide (c = '1'))

/-- The number of offsets `(k, l)` of the `k`, `l` loops of `count_neighbors_num`
for the cell `(i, j)` that reach the access `grid[row_index][column_index]`:
those that pass neither `continue`. The loops are the ones of `neighbor_count`,
counting the passes of the bounds check instead of the live cells. -/
def in_bounds_checks (row_num column_num i j : Nat) : Nat :=
  offsets.foldl (fun passed k =>
    offsets.foldl (fun passed l =>
      if k = 0 ∧ l = 0 then passed
      else if (i : Int) + k < 0 ∨ (i : Int) + k ≥ (row_num : Int) ∨ (j : Int) + l < 0 ∨
          (j : Int) + l ≥ (column_num : Int) then passed
      else passed + 1) passed) 0

/-- The cell `(i, j)` is one of the four corners of an `R` x `C` grid. -/
def is_corner (R C i j : Nat) : Prop :=
  (i = 0 ∨ i + 1 = R) ∧ (j = 0 ∨ j + 1 = C)

/-- The cell `(i, j)` lies on the border of an `R` x `C` grid. -/
def is_border (R C i j : Nat) : Prop :=
  i = 0 ∨ i + 1 = R ∨ j = 0 ∨ j + 1 = C

/-- The transpose of a table: entry `(j, i)` is entry `(i, j)` of `a`. The
number of columns is taken from the first row. -/
def transpose {α : Type} [Inhabited α] (a : List (List α)) : List (List α) :=
  (List.range (a.headD []).length).map (fun j =>
    (List.range a.length).map (fun i => (get2 a i j).getD default))

/-- The positions of the live cells of a grid. -/
def live_cells (grid : Grid) : Finset (Nat × Nat) :=
  ((Finset.range (rows grid)) ×ˢ (Finset.range (cols grid))).filter
    (fun p => get2 grid p.1 p.2 = some true)

/-! ## Tables: reads, writes and loops -/

theorem rect_of_valid {grid : Grid} (h : valid grid) : Rect (rows grid) (cols grid) grid :=
  ⟨rfl, h.2.2⟩

theorem get2_eq_some_getD {α : Type} {R C : Nat} {a : List (List α)} (h : Rect R C a)
    {i j : Nat} (hi : i < R) (hj : j < C) : ∃ v, get2 a i j = some v := by
  obtain ⟨hlen, hrow⟩ := h
  have hi2 : i < a.length := by omega
  have hr : (a[i]).length = C := hrow _ (List.getElem_mem _)
  refine ⟨(a[i])[j], ?_⟩
  simp [get2, List.getElem?_eq_getElem hi2, List.getElem?_eq_getElem (hr ▸ hj : j < (a[i]).length)]

theorem get2_eq_none {α : Type} {R C : Nat} {a : List (List α)} (h : Rect R C a)
    {i j : Nat} (hij : ¬ (i < R ∧ j < C)) : get2 a i j = none := by
  obtain ⟨hlen, hrow⟩ := h
  unfold get2
  by_cases hi : i < a.length
  · have hr : (a[i]).length = C := hrow _ (List.getElem_mem _)
    have hj : (a[i]).length ≤ j := by omega
    simp [List.getElem?_eq_getElem hi, List.getElem?_eq_none hj]
  · have : a[i]? = none := List.getElem?_eq_none (by omega)
    simp [this]

theorem set2_eq_none {α : Type} {R C : Nat} {a : List (List α)} (h : Rect R C a)
    {i j : Nat} (hij : ¬ (i < R ∧ j < C)) (v : α) : set2 a i j v = none := by
  obtain ⟨hlen, hrow⟩ := h
  unfold set2
  by_cases hi : i < a.length
  · have hr : (a[i]).length = C := hrow _ (List.getElem_mem _)
    have hj : ¬ j < (a[i]).length := by omega
    simp [List.getElem?_eq_getElem hi, hj]
  · have : a[i]? = none := List.getElem?_eq_none (by omega)
    simp [this]

theorem set2_spec {α : Type} {R C : Nat} {a : List (List α)} (h : Rect R C a)
    {i j : Nat} (hi : i < R) (hj : j < C) (v : α) :
    ∃ b, set2 a i j v = some b ∧ Rect R C b ∧
      ∀ p q, get2 b p q = if p = i ∧ q = j then some v else get2 a p q := by
  obtain ⟨hlen, hrow⟩ := h
  have hi2 : i < a.length := by omega
  have hr : (a[i]).length = C := hrow _ (List.getElem_mem _)
  have hj2 : j < (a[i]).length := by omega
  refine ⟨a.set i ((a[i]).set j v), ?_, ⟨?_, ?_⟩, ?_⟩
  · simp [set2, List.getElem?_eq_getElem hi2, hj2]
  · simp [hlen]
  · intro row hmem
    rcases List.mem_or_eq_of_mem_set hmem with h1 | h1
    · exact hrow _ h1
    · simp [h1, hr]
  · intro p q
    unfold get2
    by_cases hp : p = i
    · subst hp
      by_cases hq : q = j
      · subst hq
        simp [hi2, hj2]
      · simp [hi2, hq, List.getElem?_set_ne (Ne.symm hq), List.getElem?_eq_getElem hi2]
    · simp [hp, List.getElem?_set_ne (Ne.symm hp)]

theorem rect_ext {α : Type} {R C : Nat} {a b : List (List α)} (ha : Rect R C a)
    (hb : Rect R C b) (h : ∀ p q, p < R → q < C → get2 a p q = get2 b p q) : a = b := by
  obtain ⟨hla, hra⟩ := ha
  obtain ⟨hlb, hrb⟩ := hb
  apply List.ext_getElem (by omega)
  intro p hp1 hp2
  have h1 : (a[p]).length = C := hra _ (List.getElem_mem _)
  have h2 : (b[p]).length = C := hrb _ (List.getElem_mem _)
  apply List.ext_getElem (by omega)
  intro q hq1 hq2
  have := h p q (by omega) (by omega)
  simp only [get2, List.getElem?_eq_getElem hp1, List.getElem?_eq_getElem hp2,
    List.getElem?_eq_getElem hq1, List.getElem?_eq_getElem hq2] at this
  exact Option.some.inj this

theorem rect_replicate {α : Type} (R C : Nat) (v : α) :
    Rect R C (List.replicate R (List.replicate C v)) := by
  refine ⟨by simp, ?_⟩
  intro row hmem
  rw [List.eq_of_mem_replicate hmem]
  simp

theorem get2_replicate {α : Type} (R C : Nat) (v : α) {p q : Nat} (hp : p < R) (hq : q < C) :
    get2 (List.replicate R (List.replicate C v)) p q = some v := by
  simp [get2, List.getElem?_replicate, hp, hq]

theorem forLoop_zero {σ : Type} (body : Nat → σ → Option σ) (s : σ) :
    forLoop 0 body s = some s := rfl

theorem forLoop_succ {σ : Type} (n : Nat) (body : Nat → σ → Option σ) (s : σ) :
    forLoop (n + 1) body s = (forLoop n body s).bind (body n) := by
  unfold forLoop
  rw [List.range_succ, List.foldlM_append]
  cases h : List.foldlM (fun s i => body i s) s (List.range n) <;> simp [h]

/-- A loop whose body fails at some index below the bound fails. -/
theorem forLoop_eq_none {σ : Type} (body : Nat → σ → Option σ) (j : Nat)
    (hbody : ∀ s, body j s = none) : ∀ (n : Nat) (s : σ), j < n → forLoop n body s = none := by
  intro n
  induction n with
  | zero => intro s h; omega
  | succ n ih =>
    intro s h
    rw [forLoop_succ]
    by_cases hj : j < n
    · rw [ih s hj]; rfl
    · have : j = n := by omega
      subst this
      cases forLoop j body s <;> simp [Option.bind, hbody]

/-- The `j` loop that writes `f j` into `a[i][j]` for every `j < m`. -/
theorem forLoop_row {α : Type} {R C : Nat} (i : Nat) (hi : i < R) (f : Nat → α)
    (body : Nat → List (List α) → Option (List (List α))) :
    ∀ (m : Nat), m ≤ C →
      (∀ j s, j < m → Rect R C s → body j s = set2 s i j (f j)) →
      ∀ a, Rect R C a →
      ∃ b, forLoop m body a = some b ∧ Rect R C b ∧
        ∀ p q, get2 b p q = if p = i ∧ q < m then some (f q) else get2 a p q := by
  intro m
  induction m with
  | zero =>
    intro _ _ a ha
    exact ⟨a, rfl, ha, by simp⟩
  | succ m ih =>
    intro hm hbody a ha
    obtain ⟨b, hb, hrect, hget⟩ := ih (by omega) (fun j s hj hs => hbody j s (by omega) hs) a ha
    obtain ⟨c, hc, hrect2, hget2⟩ := set2_spec hrect hi (show m < C by omega) (f m)
    refine ⟨c, ?_, hrect2, ?_⟩
    · rw [forLoop_succ, hb]
      show body m b = some c
      rw [hbody m b (by omega) hrect, hc]
    · intro p q
      rw [hget2, hget]
      by_cases h1 : p = i ∧ q = m
      · rw [if_pos h1, if_pos ⟨h1.1, by omega⟩, h1.2]
      · rw [if_neg h1]
        by_cases h2 : p = i ∧ q < m
        · rw [if_pos h2, if_pos ⟨h2.1, by omega⟩]
        · have h3 : ¬ (p = i ∧ q < m + 1) := by
            intro h; apply h2; refine ⟨h.1, ?_⟩
            have : q ≠ m := fun e => h1 ⟨h.1, e⟩
            omega
          rw [if_neg h2, if_neg h3]

/-- The nested `i`, `j` loops that write `f i j` into `a[i][j]` for `i < n`, `j < m`. -/
theorem forLoop_table {α : Type} {R C : Nat} (f : Nat → Nat → α) (m : Nat) (hm : m ≤ C)
    (body : Nat → Nat → List (List α) → Option (List (List α))) :
    ∀ (n : Nat), n ≤ R →
      (∀ i j s, i < n → j < m → Rect R C s → body i j s = set2 s i j (f i j)) →
      ∀ a, Rect R C a →
      ∃ b, forLoop n (fun i s => forLoop m (body i) s) a = some b ∧ Rect R C b ∧
        ∀ p q, get2 b p q = if p < n ∧ q < m then some (f p q) else get2 a p q := by
  intro n
  induction n with
  | zero =>
    intro _ _ a ha
    exact ⟨a, rfl, ha, by simp⟩
  | succ n ih =>
    intro hn hbody a ha
    obtain ⟨b, hb, hrect, hget⟩ :=
      ih (by omega) (fun i j s hi hj hs => hbody i j s (by omega) hj hs) a ha
    obtain ⟨c, hc, hrect2, hget2⟩ := forLoop_row n (show n < R by omega) (f n) (body n) m hm
      (fun j s hj hs => hbody n j s (by omega) hj hs) b hrect
    refine ⟨c, ?_, hrect2, ?_⟩
    · rw [forLoop_succ, hb]
      exact hc
    · intro p q
      rw [hget2, hget]
      by_cases h1 : p = n ∧ q < m
      · rw [if_pos h1, if_pos ⟨by omega, h1.2⟩, h1.1]
      · rw [if_neg h1]
        by_cases h2 : p < n ∧ q < m
        · rw [if_pos h2, if_pos ⟨by omega, h2.2⟩]
        · have h3 : ¬ (p < n + 1 ∧ q < m) := by
            intro h
            by_cases e : p = n
            · exact h1 ⟨e, h.2⟩
            · exact h2 ⟨by omega, h.2⟩
          rw [if_neg h2, if_neg h3]

/-! ## `count_neighbors_num`: closed form -/

theorem foldlM_add {β : Type} (c : β → Nat) (f : Nat → β → Option Nat)
    (hf : ∀ acc x, f acc x = some (acc + c x)) :
    ∀ (xs : List β) (acc : Nat), xs.foldlM f acc = some (acc + (xs.map c).sum) := by
  intro xs
  induction xs with
  | nil => intro acc; simp [pure]
  | cons x xs ih =>
    intro acc
    rw [List.foldlM_cons, hf]
    show xs.foldlM f (acc + c x) = _
    rw [ih]
    simp [Nat.add_assoc]

/-- On a valid grid one offset `(k, l)` adds 1 to the count exactly when it is
not `(0, 0)` and `(i + k, j + l)` is inside the grid and alive. -/
theorem count_step_valid {grid : Grid} (h : valid grid) (i j : Nat) (k l : Int) (cnt : Nat) :
    count_step grid (rows grid) (cols grid) i j k l cnt =
      some (cnt + if (k, l) ≠ (0, 0) ∧ alive_at grid ((i : Int) + k) ((j : Int) + l)
        then 1 else 0) := by
  unfold count_step
  by_cases h0 : k = 0 ∧ l = 0
  · obtain ⟨rfl, rfl⟩ := h0
    simp
  · have hne : (k, l) ≠ (0, 0) := by
      intro e; exact h0 ⟨congrArg Prod.fst e, congrArg Prod.snd e⟩
    rw [if_neg h0]
    by_cases hb : (i : Int) + k < 0 ∨ (i : Int) + k ≥ (rows grid : Int) ∨ (j : Int) + l < 0 ∨
        (j : Int) + l ≥ (cols grid : Int)
    · have hna : ¬ alive_at grid ((i : Int) + k) ((j : Int) + l) := by
        unfold alive_at; omega
      simp only [hb, if_true, hna, and_false, if_false, Nat.add_zero]
    · have h1 : ((i : Int) + k).toNat < rows grid := by omega
      have h2 : ((j : Int) + l).toNat < cols grid := by omega
      obtain ⟨v, hv⟩ := get2_eq_some_getD (rect_of_valid h) h1 h2
      simp only [hb, if_false, hv]
      have ha : alive_at grid ((i : Int) + k) ((j : Int) + l) ↔ v = true := by
        unfold alive_at
        rw [hv]
        constructor
        · intro h; exact Option.some.inj h.2.2.2.2
        · intro h; subst h; exact ⟨by omega, by omega, by omega, by omega, rfl⟩
      have hc : (if (k, l) ≠ (0, 0) ∧ alive_at grid ((i : Int) + k) ((j : Int) + l)
          then 1 else 0) = (if v = true then 1 else 0) := by
        by_cases hv2 : v = true
        · rw [if_pos ⟨hne, ha.2 hv2⟩, if_pos hv2]
        · rw [if_neg (fun h => hv2 (ha.1 h.2)), if_neg hv2]
      rw [hc]
      cases v <;> rfl

theorem sum_offsets (f : Int → Nat) :
    (∑ x ∈ ({-1, 0, 1} : Finset Int), f x) = f (-1) + (f 0 + f 1) := by
  rw [Finset.sum_insert (by decide), Finset.sum_insert (by decide), Finset.sum_singleton]

/-- The specification count written as the sum over the nine offsets. -/
theorem live_neighbours_eq_sum (grid : Grid) (i j : Nat) :
    live_neighbours grid i j =
      (offsets.map (fun k => (offsets.map (fun l =>
        if (k, l) ≠ (0, 0) ∧ alive_at grid ((i : Int) + k) ((j : Int) + l)
          then 1 else 0)).sum)).sum := by
  unfold live_neighbours
  rw [Finset.card_filter, Finset.sum_product]
  simp only [sum_offsets, offsets, List.map_cons, List.map_nil, List.sum_cons, List.sum_nil,
    Nat.add_zero]

/-- On a valid grid the `k`, `l` loops count the live 8-neighbours. -/
theorem neighbor_count_valid {grid : Grid} (h : valid grid) (i j : Nat) :
    neighbor_count grid (rows grid) (cols grid) i j = some (live_neighbours grid i j) := by
  unfold neighbor_count
  rw [live_neighbours_eq_sum]
  have inner : ∀ (cnt : Nat) (k : Int),
      offsets.foldlM (fun cnt l => count_step grid (rows grid) (cols grid) i j k l cnt) cnt =
        some (cnt + (offsets.map (fun l =>
          if (k, l) ≠ (0, 0) ∧ alive_at grid ((i : Int) + k) ((j : Int) + l)
            then 1 else 0)).sum) := by
    intro cnt k
    exact foldlM_add _ _ (fun acc l => count_step_valid h i j k l acc) offsets cnt
  rw [foldlM_add _ _ inner offsets 0]
  simp

theorem getElem?_zero_of_valid {grid : Grid} (h : valid grid) :
    ∃ row0, grid[0]? = some row0 ∧ row0.length = cols grid := by
  cases grid with
  | nil => exact absurd h.1 (by simp [rows])
  | cons row0 rest => exact ⟨row0, by simp, rfl⟩

/-- On a valid grid `count_neighbors_num` returns the table of the numbers of
live 8-neighbours, of the shape of the grid. -/
theorem count_neighbors_num_valid {grid : Grid} (h : valid grid) :
    ∃ cnt, count_neighbors_num grid = some cnt ∧ Rect (rows grid) (cols grid) cnt ∧
      ∀ i j, i < rows grid → j < cols grid → get2 cnt i j = some (live_neighbours grid i j) := by
  obtain ⟨row0, h0, hlen⟩ := getElem?_zero_of_valid h
  obtain ⟨b, hb, hrect, hget⟩ := forLoop_table (R := rows grid) (C := cols grid)
    (fun i j => live_neighbours grid i j) (cols grid) (Nat.le_refl _)
    (fun i j neighbor_num =>
      match neighbor_count grid (rows grid) (cols grid) i j with
      | none => none
      | some cnt => set2 neighbor_num i j cnt)
    (rows grid) (Nat.le_refl _)
    (fun i j s _ _ _ => by simp only [neighbor_count_valid h])
    (List.replicate (rows grid) (List.replicate (cols grid) 0)) (rect_replicate _ _ _)
  refine ⟨b, ?_, hrect, ?_⟩
  · unfold count_neighbors_num
    simp only [h0, hlen]
    exact hb
  · intro i j hi hj
    rw [hget, if_pos ⟨hi, hj⟩]

/-! ## `update_cells`: closed form -/

theorem rule_eq (n : Nat) (cell : Bool) :
    rule n cell = if n = 3 then true else if n = 2 then cell else false := by
  unfold rule
  by_cases h3 : n = 3
  · simp [h3]
  · by_cases h2 : n = 2
    · simp [h2]
    · simp [h2, h3]

/-- With the counts of a valid grid, the body of the `j` loop writes the
value of the transition rule into `new_grid[i][j]`. -/
theorem update_step_valid {grid : Grid} (h : valid grid) {cnt : List (List Nat)}
    (hcnt : ∀ i j, i < rows grid → j < cols grid →
      get2 cnt i j = some (live_neighbours grid i j))
    {i j : Nat} (hi : i < rows grid) (hj : j < cols grid) (new_grid : Grid) :
    update_step grid cnt i j new_grid =
      set2 new_grid i j (rule (live_neighbours grid i j) ((get2 grid i j).getD false)) := by
  obtain ⟨v, hv⟩ := get2_eq_some_getD (rect_of_valid h) hi hj
  unfold update_step
  rw [hcnt i j hi hj, hv, rule_eq]
  simp only [Option.getD_some]
  by_cases h3 : live_neighbours grid i j = 3
  · simp [h3]
  · by_cases h2 : live_neighbours grid i j = 2
    · simp [h2]
    · simp [h2, h3]

/-- What `update_cells` does on a valid grid that has at least as many columns
as rows: the call succeeds, the counter goes up by one, the new grid has the
shape of the old one, the cells in the columns `j < rows` follow the transition
rule on the old grid and the cells in the columns `j ≥ rows` are dead. -/
theorem update_cells_of_le {grid : Grid} (h : valid grid) (hle : rows grid ≤ cols grid)
    (t : Int) :
    ∃ new_grid, update_cells grid t = some (new_grid, t + 1) ∧
      Rect (rows grid) (cols grid) new_grid ∧
      ∀ p q, p < rows grid → q < cols grid →
        get2 new_grid p q = some (if q < rows grid then
          rule (live_neighbours grid p q) ((get2 grid p q).getD false) else false) := by
  obtain ⟨cnt, hc, _, hcnt⟩ := count_neighbors_num_valid h
  obtain ⟨row0, h0, hlen⟩ := getElem?_zero_of_valid h
  obtain ⟨b, hb, hrect, hget⟩ := forLoop_table (R := rows grid) (C := cols grid)
    (fun i j => rule (live_neighbours grid i j) ((get2 grid i j).getD false))
    (rows grid) hle (fun i j s => update_step grid cnt i j s) (rows grid) (Nat.le_refl _)
    (fun i j s hi hj _ => update_step_valid h hcnt hi (by omega) s)
    (List.replicate (rows grid) (List.replicate (cols grid) false)) (rect_replicate _ _ _)
  refine ⟨b, ?_, hrect, ?_⟩
  · unfold update_cells
    simp only [hc, h0, hlen]
    have hb2 : forLoop grid.length (fun i new_grid =>
        forLoop grid.length (fun j new_grid => update_step grid cnt i j new_grid) new_grid)
        (List.replicate grid.length (List.replicate (cols grid) false)) = some b := hb
    rw [hb2]
  · intro p q hp hq
    rw [hget]
    by_cases hq2 : q < rows grid
    · rw [if_pos ⟨hp, hq2⟩, if_pos hq2]
    · rw [if_neg (fun hh => hq2 hh.2), if_neg hq2, get2_replicate _ _ _ hp hq]

/-- On a valid grid with more rows than columns `update_cells` reads
`neighbor_num[0][j]` with `j = cols`, outside the row. -/
theorem update_cells_of_gt {grid : Grid} (h : valid grid) (hgt : cols grid < rows grid)
    (t : Int) : update_cells grid t = none := by
  obtain ⟨cnt, hc, hrect, _⟩ := count_neighbors_num_valid h
  obtain ⟨row0, h0, hlen⟩ := getElem?_zero_of_valid h
  have hstep : ∀ s : Grid, update_step grid cnt 0 (cols grid) s = none := by
    intro s
    unfold update_step
    rw [get2_eq_none hrect (by omega)]
  have hinner : ∀ s : Grid,
      forLoop (rows grid) (fun j new_grid => update_step grid cnt 0 j new_grid) s = none :=
    fun s => forLoop_eq_none _ (cols grid) hstep (rows grid) s hgt
  have houter : ∀ s : Grid, forLoop (rows grid) (fun i new_grid =>
      forLoop (rows grid) (fun j new_grid => update_step grid cnt i j new_grid) new_grid) s
        = none :=
    fun s => forLoop_eq_none _ 0 hinner (rows grid) s h.1
  unfold update_cells
  simp only [hc, h0]
  have := houter (List.replicate grid.length (List.replicate row0.length false))
  unfold rows at this
  rw [this]

/-! ## `all_cells_dead` and dead grids -/

theorem row_has_live_eq_false (row : List Bool) :
    row_has_live row = false ↔ ∀ cell ∈ row, cell = false := by
  induction row with
  | nil => simp [row_has_live]
  | cons cell rest ih =>
    cases cell <;> simp [row_has_live, ih]

theorem grid_has_live_eq_false (grid : Grid) : grid_has_live grid = false ↔ all_dead grid := by
  unfold all_dead
  induction grid with
  | nil => simp [grid_has_live]
  | cons row rest ih =>
    by_cases hrow : row_has_live row = true
    · have hn : ¬ ∀ cell ∈ row, cell = false := fun hh =>
        absurd ((row_has_live_eq_false row).2 hh) (by simp [hrow])
      simp only [grid_has_live, hrow, if_true, List.mem_cons, forall_eq_or_imp]
      exact ⟨fun hh => absurd hh (by simp), fun hh => absurd hh.1 hn⟩
    · have hrow2 : row_has_live row = false := by simpa using hrow
      have hall := (row_has_live_eq_false row).1 hrow2
      simp only [grid_has_live, hrow2, Bool.false_eq_true, if_false, ih, List.mem_cons,
        forall_eq_or_imp]
      exact ⟨fun hh => ⟨hall, hh⟩, fun hh => hh.2⟩

theorem all_cells_dead_eq_true (grid : Grid) (g_timestep : Int) :
    (all_cells_dead grid g_timestep).1 = true ↔ all_dead grid := by
  rw [← grid_has_live_eq_false]
  unfold all_cells_dead
  cases grid_has_live grid <;> simp

theorem mem_of_get2 {α : Type} {a : List (List α)} {i j : Nat} {v : α}
    (h : get2 a i j = some v) : ∃ row ∈ a, v ∈ row := by
  unfold get2 at h
  cases hrow : a[i]? with
  | none => simp [hrow] at h
  | some row =>
    simp only [hrow] at h
    exact ⟨row, List.getElem?_mem hrow, List.getElem?_mem h⟩

theorem live_neighbours_of_all_dead {grid : Grid} (h : all_dead grid) (i j : Nat) :
    live_neighbours grid i j = 0 := by
  unfold live_neighbours
  rw [Finset.card_eq_zero, Finset.filter_eq_empty_iff]
  intro p _ hp
  obtain ⟨row, hrow, hcell⟩ := mem_of_get2 hp.2.2.2.2.2
  exact absurd (h row hrow true hcell) (by simp)

/-- A valid dead grid with at least as many columns as rows is left unchanged
by `update_cells`. -/
theorem update_cells_all_dead_of_le {grid : Grid} (h : valid grid)
    (hle : rows grid ≤ cols grid) (hdead : all_dead grid) (t : Int) :
    update_cells grid t = some (grid, t + 1) := by
  obtain ⟨new_grid, hnew, hrect, hget⟩ := update_cells_of_le h hle t
  have : new_grid = grid := by
    apply rect_ext hrect (rect_of_valid h)
    intro p q hp hq
    obtain ⟨v, hv⟩ := get2_eq_some_getD (rect_of_valid h) hp hq
    obtain ⟨row, hrow, hcell⟩ := mem_of_get2 hv
    have hvf : v = false := hdead row hrow v hcell
    rw [hget p q hp hq, hv, hvf, live_neighbours_of_all_dead hdead]
    simp [rule]
  rw [hnew, this]

/-- Extinction is absorbing on the valid grids with at least as many columns
as rows: after any number of updates the grid is the same dead grid. -/
theorem update_n_all_dead_of_le {grid : Grid} (h : valid grid)
    (hle : rows grid ≤ cols grid) (hdead : all_dead grid) (t : Int) (n : Nat) :
    update_n n grid t = some (grid, t + n) ∧ (all_cells_dead grid (t + n)).1 = true := by
  refine ⟨?_, (all_cells_dead_eq_true grid _).2 hdead⟩
  induction n with
  | zero => simp [update_n]
  | succ n ih =>
    simp only [update_n, ih, update_cells_all_dead_of_le h hle hdead]
    simp [Int.add_assoc]

/-! ## `read_cells_grid_from_file`: closed form -/

theorem foldl_read_char (line : List Char) :
    ∀ row : List Bool, line.foldl read_char row =
      row ++ line.filterMap (fun c =>
        if c = '0' then some false else if c = '1' then some true else none) := by
  induction line with
  | nil => intro row; simp
  | cons c rest ih =>
    intro row
    rw [List.foldl_cons, ih]
    unfold read_char
    by_cases h0 : c = '0'
    · simp [h0, List.filterMap_cons]
    · by_cases h1 : c = '1'
      · simp [h1, List.filterMap_cons]
      · simp [h0, h1, List.filterMap_cons]

theorem length_foldl_read_char (line : String) :
    (line.toList.foldl read_char []).length = digit_count line := by
  rw [foldl_read_char]
  unfold digit_count
  generalize line.toList = cs
  induction cs with
  | nil => simp
  | cons c rest ih =>
    simp only [List.nil_append] at ih
    by_cases h0 : c = '0'
    · simp [h0, List.filterMap_cons, ih]
    · by_cases h1 : c = '1'
      · simp [h1, List.filterMap_cons, ih]
      · simp [h0, h1, List.filterMap_cons, ih]

theorem read_cells_grid_from_file_eq_map (lines : List String) :
    read_cells_grid_from_file lines = lines.map (fun line => line.toList.foldl read_char []) := by
  unfold read_cells_grid_from_file
  have key : ∀ (ls : List String) (grid : Grid),
      ls.foldl (fun grid line => grid ++ [line.toList.foldl read_char []]) grid =
        grid ++ ls.map (fun line => line.toList.foldl read_char []) := by
    intro ls
    induction ls with
    | nil => intro grid; simp
    | cons l rest ih => intro grid; rw [List.foldl_cons, ih]; simp
  simpa using key lines []

theorem map_length_read_cells_grid_from_file (lines : List String) :
    (read_cells_grid_from_file lines).map List.length = lines.map digit_count := by
  rw [read_cells_grid_from_file_eq_map, List.map_map]
  apply List.map_congr_left
  intro line _
  exact length_foldl_read_char line

theorem valid_read_cells_grid_from_file_iff (lines : List String) :
    valid (read_cells_grid_from_file lines) ↔
      lines ≠ [] ∧ 0 < digit_count (lines.headD "") ∧
        ∀ line ∈ lines, digit_count line = digit_count (lines.headD "") := by
  rw [read_cells_grid_from_file_eq_map]
  cases lines with
  | nil => simp [valid, rows]
  | cons l rest =>
    simp only [valid, rows, cols, List.map_cons, List.headD_cons, List.length_cons,
      length_foldl_read_char, List.mem_cons, forall_eq_or_imp, List.forall_mem_map, ne_eq,
      not_false_eq_true, true_and, Nat.zero_lt_succ, reduceCtorEq]

/-- In a run of the loop of `main` that starts with counter `t` after `n`
updates, a grid displayed after `k` updates carries the time step
`t + 2 (k - n)`, and extinction reported after `k` updates carries the time
step `t + 2 (k - n) - 1`. -/
theorem main_loop_timestep : ∀ (fuel : Nat) (grid : Grid) (t : Int) (n : Nat)
    (o : Output) (k : Nat), (o, k) ∈ main_loop fuel grid t n →
      n ≤ k ∧ ((∃ g, o = Output.cells (t + 2 * ((k : Int) - n)) g) ∨
        o = Output.dead (t + 2 * ((k : Int) - n) - 1)) := by
  intro fuel
  induction fuel with
  | zero => intro grid t n o k h; simp [main_loop] at h
  | succ fuel ih =>
    intro grid t n o k h
    unfold main_loop at h
    rw [List.mem_append] at h
    rcases h with h | h
    · simp only [display_cells, List.map_cons, List.map_nil, List.mem_singleton,
        Prod.mk.injEq] at h
      obtain ⟨rfl, rfl⟩ := h
      exact ⟨Nat.le_refl _, Or.inl ⟨grid, by simp⟩⟩
    · cases hu : update_cells grid t with
      | none => simp [hu] at h
      | some r =>
        obtain ⟨grid1, t1⟩ := r
        have ht1 : t1 = t + 1 := by
          unfold update_cells at hu
          split at hu
          · simp at hu
          · split at hu
            · simp at hu
            · dsimp only at hu
              split at hu
              · simp at hu
              · simp only [Option.some.injEq, Prod.mk.injEq] at hu
                exact hu.2.symm
        subst ht1
        simp only [hu] at h
        rw [List.mem_append] at h
        rcases h with h | h
        · unfold all_cells_dead at h
          by_cases hl : grid_has_live grid1 = true
          · simp [hl] at h
          · simp only [hl, Bool.false_eq_true, if_false, List.map_cons, List.map_nil,
              List.mem_singleton, Prod.mk.injEq] at h
            obtain ⟨rfl, rfl⟩ := h
            refine ⟨by omega, Or.inr ?_⟩
            congr 1
            push_cast
            ring
        · by_cases hd : (all_cells_dead grid1 (t + 1)).1 = true
          · simp [hd] at h
          · simp only [hd, Bool.false_eq_true, if_false] at h
            obtain ⟨hle, hor⟩ := ih grid1 (t + 1 + 1) (n + 1) o k h
            refine ⟨by omega, ?_⟩
            have e : t + 1 + 1 + 2 * ((k : Int) - ((n + 1 : Nat) : Int)) =
                t + 2 * ((k : Int) - n) := by push_cast; ring
            rw [e] at hor
            exact hor

/-! ## Further facts about tables -/

theorem get2_of_mem {α : Type} {R C : Nat} {a : List (List α)} (h : Rect R C a)
    {row : List α} (hrow : row ∈ a) {v : α} (hv : v ∈ row) :
    ∃ i j, i < R ∧ j < C ∧ get2 a i j = some v := by
  obtain ⟨i, hi⟩ := List.mem_iff_getElem?.1 hrow
  obtain ⟨j, hj⟩ := List.mem_iff_getElem?.1 hv
  obtain ⟨hi1, _⟩ := List.getElem?_eq_some.1 hi
  obtain ⟨hj1, _⟩ := List.getElem?_eq_some.1 hj
  have hlen : row.length = C := h.2 row hrow
  refine ⟨i, j, by have := h.1; omega, by omega, ?_⟩
  simp [get2, hi, hj]

theorem valid_of_rect {R C : Nat} {grid : Grid} (h : Rect R C grid) (hR : 0 < R)
    (hC : 0 < C) : rows grid = R ∧ cols grid = C ∧ valid grid := by
  obtain ⟨hlen, hrow⟩ := h
  cases grid with
  | nil => simp at hlen; omega
  | cons row0 rest =>
    have h0 : row0.length = C := hrow row0 (List.mem_cons_self _ _)
    have hc : cols (row0 :: rest) = C := h0
    refine ⟨hlen, hc, ?_, ?_, ?_⟩
    · show 0 < (row0 :: rest).length
      omega
    · omega
    · intro row hmem
      rw [hc]
      exact hrow row hmem

theorem rect_table {α : Type} (R C : Nat) (f : Nat → Nat → α) :
    Rect R C ((List.range R).map (fun i => (List.range C).map (fun j => f i j))) := by
  refine ⟨by simp, ?_⟩
  intro row hmem
  obtain ⟨i, _, rfl⟩ := List.mem_map.1 hmem
  simp

theorem get2_table {α : Type} (R C : Nat) (f : Nat → Nat → α) {p q : Nat} (hp : p < R)
    (hq : q < C) :
    get2 ((List.range R).map (fun i => (List.range C).map (fun j => f i j))) p q =
      some (f p q) := by
  simp [get2, List.getElem?_map, List.getElem?_range hp, List.getElem?_range hq]

theorem live_neighbours_le_eight (grid : Grid) (i j : Nat) : live_neighbours grid i j ≤ 8 := by
  unfold live_neighbours
  have hsub : (({-1, 0, 1} : Finset Int) ×ˢ ({-1, 0, 1} : Finset Int)).filter
      (fun p => p ≠ (0, 0) ∧ alive_at grid ((i : Int) + p.1) ((j : Int) + p.2)) ⊆
      ((({-1, 0, 1} : Finset Int) ×ˢ ({-1, 0, 1} : Finset Int)).erase (0, 0)) := by
    intro p hp
    rw [Finset.mem_filter] at hp
    exact Finset.mem_erase.2 ⟨hp.2.1, hp.1⟩
  have hcard : ((({-1, 0, 1} : Finset Int) ×ˢ ({-1, 0, 1} : Finset Int)).erase (0, 0)).card
      = 8 := by decide
  calc _ ≤ _ := Finset.card_le_card hsub
    _ = 8 := hcard

theorem foldl_read_char_eq_row_of_line (line : String) :
    line.toList.foldl read_char [] = row_of_line line := by
  rw [foldl_read_char]
  unfold row_of_line
  generalize line.toList = cs
  induction cs with
  | nil => simp
  | cons c rest ih =>
    simp only [List.nil_append] at ih
    by_cases h0 : c = '0'
    · subst h0
      simp [List.filterMap_cons, List.filter_cons, ih]
    · by_cases h1 : c = '1'
      · subst h1
        simp [List.filterMap_cons, List.filter_cons, ih]
      · simp [h0, h1, List.filterMap_cons, List.filter_cons, ih]

/-- On a valid grid with at least as many columns as rows the grid left by
`update_cells` is valid and has the dimensions of the old one. -/
theorem update_cells_valid_of_le {grid : Grid} (h : valid grid) (hle : rows grid ≤ cols grid)
    (t : Int) :
    ∃ new_grid, update_cells grid t = some (new_grid, t + 1) ∧ valid new_grid ∧
      rows new_grid = rows grid ∧ cols new_grid = cols grid := by
  obtain ⟨new_grid, hnew, hrect, _⟩ := update_cells_of_le h hle t
  obtain ⟨h1, h2, h3⟩ := valid_of_rect hrect h.1 h.2.1
  exact ⟨new_grid, hnew, h3, h1, h2⟩

/-- On a valid grid with at least as many columns as rows every number of
updates succeeds and keeps the grid valid with the same dimensions. -/
theorem update_n_valid_of_le {grid : Grid} (h : valid grid) (hle : rows grid ≤ cols grid)
    (t : Int) (n : Nat) :
    ∃ new_grid, update_n n grid t = some (new_grid, t + n) ∧ valid new_grid ∧
      rows new_grid = rows grid ∧ cols new_grid = cols grid := by
  induction n with
  | zero => exact ⟨grid, by simp [update_n], h, rfl, rfl⟩
  | succ n ih =>
    obtain ⟨g1, hg1, hv1, hr1, hc1⟩ := ih
    obtain ⟨g2, hg2, hv2, hr2, hc2⟩ := update_cells_valid_of_le hv1 (by omega) (t + n)
    refine ⟨g2, ?_, hv2, by omega, by omega⟩
    simp only [update_n, hg1, hg2]
    simp [Int.add_assoc]

/-! ## The bounds check of `count_neighbors_num` -/

theorem foldl_add {β : Type} (c : β → Nat) (f : Nat → β → Nat)
    (hf : ∀ acc x, f acc x = acc + c x) :
    ∀ (xs : List β) (acc : Nat), xs.foldl f acc = acc + (xs.map c).sum := by
  intro xs
  induction xs with
  | nil => intro acc; simp
  | cons x xs ih =>
    intro acc
    rw [List.foldl_cons, hf, ih]
    simp [Nat.add_assoc]

/-- The passes of the bounds check written as the sum over the nine offsets. -/
theorem in_bounds_checks_eq_sum (R C i j : Nat) :
    in_bounds_checks R C i j =
      (offsets.map (fun k => (offsets.map (fun l =>
        if (k, l) ≠ (0, 0) ∧ ((0 ≤ (i : Int) + k ∧ (i : Int) + k < R) ∧ (0 ≤ (j : Int) + l ∧
          (j : Int) + l < C)) then 1 else 0)).sum)).sum := by
  unfold in_bounds_checks
  have step : ∀ (k l : Int) (acc : Nat),
      (if k = 0 ∧ l = 0 then acc
        else if (i : Int) + k < 0 ∨ (i : Int) + k ≥ (R : Int) ∨ (j : Int) + l < 0 ∨
          (j : Int) + l ≥ (C : Int) then acc
        else acc + 1) =
      acc + (if (k, l) ≠ (0, 0) ∧ ((0 ≤ (i : Int) + k ∧ (i : Int) + k < R) ∧
        (0 ≤ (j : Int) + l ∧ (j : Int) + l < C)) then 1 else 0) := by
    intro k l acc
    by_cases h0 : k = 0 ∧ l = 0
    · have : ¬ ((k, l) ≠ (0, 0) ∧ ((0 ≤ (i : Int) + k ∧ (i : Int) + k < R) ∧
          (0 ≤ (j : Int) + l ∧ (j : Int) + l < C))) := by
        intro hh; apply hh.1; rw [h0.1, h0.2]
      rw [if_pos h0, if_neg this]
      rfl
    · have hne : (k, l) ≠ (0, 0) := by
        intro e; exact h0 ⟨congrArg Prod.fst e, congrArg Prod.snd e⟩
      rw [if_neg h0]
      by_cases hb : (i : Int) + k < 0 ∨ (i : Int) + k ≥ (R : Int) ∨ (j : Int) + l < 0 ∨
          (j : Int) + l ≥ (C : Int)
      · have : ¬ ((k, l) ≠ (0, 0) ∧ ((0 ≤ (i : Int) + k ∧ (i : Int) + k < R) ∧
            (0 ≤ (j : Int) + l ∧ (j : Int) + l < C))) := by
          intro hh; omega
        rw [if_pos hb, if_neg this]
        rfl
      · have : (k, l) ≠ (0, 0) ∧ ((0 ≤ (i : Int) + k ∧ (i : Int) + k < R) ∧
            (0 ≤ (j : Int) + l ∧ (j : Int) + l < C)) := ⟨hne, by omega⟩
        rw [if_neg hb, if_pos this]
  have inner : ∀ (acc : Nat) (k : Int),
      offsets.foldl (fun passed l =>
        if k = 0 ∧ l = 0 then passed
        else if (i : Int) + k < 0 ∨ (i : Int) + k ≥ (R : Int) ∨ (j : Int) + l < 0 ∨
          (j : Int) + l ≥ (C : Int) then passed
        else passed + 1) acc =
      acc + (offsets.map (fun l =>
        if (k, l) ≠ (0, 0) ∧ ((0 ≤ (i : Int) + k ∧ (i : Int) + k < R) ∧ (0 ≤ (j : Int) + l ∧
          (j : Int) + l < C)) then 1 else 0)).sum :=
    fun acc k => foldl_add _ _ (fun a l => step k l a) offsets acc
  rw [foldl_add _ _ inner offsets 0]
  simp

/-- The live neighbours are among the offsets that pass the bounds check. -/
theorem live_neighbours_le_in_bounds_checks (grid : Grid) (i j : Nat) :
    live_neighbours grid i j ≤ in_bounds_checks (rows grid) (cols grid) i j := by
  rw [live_neighbours_eq_sum, in_bounds_checks_eq_sum]
  apply List.sum_le_sum
  intro k _
  apply List.sum_le_sum
  intro l _
  by_cases ha : (k, l) ≠ (0, 0) ∧ alive_at grid ((i : Int) + k) ((j : Int) + l)
  · have hb : (k, l) ≠ (0, 0) ∧ ((0 ≤ (i : Int) + k ∧ (i : Int) + k < rows grid) ∧
        (0 ≤ (j : Int) + l ∧ (j : Int) + l < cols grid)) :=
      ⟨ha.1, ⟨ha.2.1, ha.2.2.1⟩, ⟨ha.2.2.2.1, ha.2.2.2.2.1⟩⟩
    rw [if_pos ha, if_pos hb]
  · rw [if_neg ha]
    exact Nat.zero_le _

/-- The number of passes of the bounds check: 3 at a corner, 5 on the border
off the corners, 8 inside, in a grid with at least 2 rows and 2 columns. -/
theorem in_bounds_checks_values {R C i j : Nat} (hR : 2 ≤ R) (hC : 2 ≤ C) (hi : i < R)
    (hj : j < C) :
    (is_corner R C i j → in_bounds_checks R C i j = 3) ∧
    (is_border R C i j → ¬ is_corner R C i j → in_bounds_checks R C i j = 5) ∧
    (¬ is_border R C i j → in_bounds_checks R C i j = 8) := by
  rw [in_bounds_checks_eq_sum]
  unfold is_corner is_border
  have e1 : (0 ≤ (i : Int) + -1 ∧ (i : Int) + -1 < R) ↔ ¬ i = 0 := by omega
  have e0 : (0 ≤ (i : Int) + 0 ∧ (i : Int) + 0 < R) ↔ True := by
    simp only [iff_true]; omega
  have e2 : (0 ≤ (i : Int) + 1 ∧ (i : Int) + 1 < R) ↔ ¬ i + 1 = R := by omega
  have f1 : (0 ≤ (j : Int) + -1 ∧ (j : Int) + -1 < C) ↔ ¬ j = 0 := by omega
  have f0 : (0 ≤ (j : Int) + 0 ∧ (j : Int) + 0 < C) ↔ True := by
    simp only [iff_true]; omega
  have f2 : (0 ≤ (j : Int) + 1 ∧ (j : Int) + 1 < C) ↔ ¬ j + 1 = C := by omega
  simp only [offsets, List.map_cons, List.map_nil, List.sum_cons, List.sum_nil]
  simp only [e1, e0, e2, f1, f0, f2]
  norm_num
  by_cases h1 : i = 0 <;> by_cases h2 : i + 1 = R <;> by_cases h3 : j = 0 <;>
    by_cases h4 : j + 1 = C <;>
    (first | have a1 := eq_false h1 | have a1 := eq_true h1) <;>
    (first | have a2 := eq_false h2 | have a2 := eq_true h2) <;>
    (first | have a3 := eq_false h3 | have a3 := eq_true h3) <;>
    (first | have a4 := eq_false h4 | have a4 := eq_true h4) <;>
    simp only [a1, a2, a3, a4, not_true_eq_false, not_false_eq_true, and_true, true_and,
      and_false, false_and, if_true, if_false, true_or, or_true, false_or, or_false,
      true_implies, false_implies, implies_true, and_self] <;>
    omega

/-! ## Transposition -/

theorem transpose_eq_table {α : Type} [Inhabited α] {R C : Nat} {a : List (List α)}
    (h : Rect R C a) (hR : 0 < R) :
    transpose a = (List.range C).map (fun j =>
      (List.range R).map (fun i => (get2 a i j).getD default)) := by
  obtain ⟨hlen, hrow⟩ := h
  cases a with
  | nil => simp at hlen; omega
  | cons row0 rest =>
    have h0 : row0.length = C := hrow row0 (List.mem_cons_self _ _)
    unfold transpose
    rw [List.headD_cons, h0, hlen]

theorem rect_transpose {α : Type} [Inhabited α] {R C : Nat} {a : List (List α)}
    (h : Rect R C a) (hR : 0 < R) : Rect C R (transpose a) := by
  rw [transpose_eq_table h hR]
  exact rect_table _ _ _

theorem get2_transpose {α : Type} [Inhabited α] {R C : Nat} {a : List (List α)}
    (h : Rect R C a) {i j : Nat} (hi : i < R) (hj : j < C) :
    get2 (transpose a) j i = get2 a i j := by
  rw [transpose_eq_table h (by omega), get2_table _ _ _ hj hi]
  obtain ⟨v, hv⟩ := get2_eq_some_getD h hi hj
  rw [hv]
  rfl

theorem valid_transpose {grid : Grid} (h : valid grid) :
    rows (transpose grid) = cols grid ∧ cols (transpose grid) = rows grid ∧
      valid (transpose grid) :=
  valid_of_rect (rect_transpose (rect_of_valid h) h.1) h.2.1 h.1

theorem alive_at_transpose {grid : Grid} (h : valid grid) (r c : Int) :
    alive_at (transpose grid) c r ↔ alive_at grid r c := by
  obtain ⟨hr, hc, _⟩ := valid_transpose h
  unfold alive_at
  rw [hr, hc]
  constructor
  · rintro ⟨h1, h2, h3, h4, h5⟩
    rw [get2_transpose (rect_of_valid h) (show r.toNat < rows grid by omega)
      (show c.toNat < cols grid by omega)] at h5
    exact ⟨h3, h4, h1, h2, h5⟩
  · rintro ⟨h1, h2, h3, h4, h5⟩
    refine ⟨h3, h4, h1, h2, ?_⟩
    rw [get2_transpose (rect_of_valid h) (show r.toNat < rows grid by omega)
      (show c.toNat < cols grid by omega)]
    exact h5

theorem live_neighbours_transpose {grid : Grid} (h : valid grid) (i j : Nat) :
    live_neighbours (transpose grid) j i = live_neighbours grid i j := by
  unfold live_neighbours
  apply Finset.card_bij (fun p _ => (p.2, p.1))
  · intro p hp
    rw [Finset.mem_filter, Finset.mem_product] at hp ⊢
    refine ⟨⟨hp.1.2, hp.1.1⟩, ?_, ?_⟩
    · intro e
      apply hp.2.1
      have e1 : p.2 = 0 := congrArg Prod.fst e
      have e2 : p.1 = 0 := congrArg Prod.snd e
      exact Prod.ext e2 e1
    · exact (alive_at_transpose h _ _).1 hp.2.2
  · intro p _ q _ e
    have e1 : p.2 = q.2 := congrArg Prod.fst e
    have e2 : p.1 = q.1 := congrArg Prod.snd e
    exact Prod.ext e2 e1
  · intro q hq
    rw [Finset.mem_filter, Finset.mem_product] at hq
    refine ⟨(q.2, q.1), ?_, rfl⟩
    rw [Finset.mem_filter, Finset.mem_product]
    refine ⟨⟨hq.1.2, hq.1.1⟩, ?_, ?_⟩
    · intro e
      apply hq.2.1
      have e1 : q.2 = 0 := congrArg Prod.fst e
      have e2 : q.1 = 0 := congrArg Prod.snd e
      exact Prod.ext e2 e1
    · exact (alive_at_transpose h _ _).2 hq.2.2

/-! ## Grids with few live cells -/

theorem bounds_of_get2 {α : Type} {R C : Nat} {a : List (List α)} (h : Rect R C a)
    {i j : Nat} {v : α} (hv : get2 a i j = some v) : i < R ∧ j < C := by
  by_contra hn
  rw [get2_eq_none h hn] at hv
  exact Option.noConfusion hv

/-- The live neighbours of a cell, and the cell itself when it is alive, are
distinct live cells of the grid. -/
theorem live_neighbours_add_self_le {grid : Grid} (h : valid grid) (i j : Nat) :
    live_neighbours grid i j + (if get2 grid i j = some true then 1 else 0) ≤
      (live_cells grid).card := by
  have hle : live_neighbours grid i j ≤ ((live_cells grid).erase (i, j)).card := by
    unfold live_neighbours
    apply Finset.card_le_card_of_injOn
      (fun p : Int × Int => (((i : Int) + p.1).toNat, ((j : Int) + p.2).toNat))
    · intro p hp
      rw [Finset.mem_filter] at hp
      obtain ⟨_, hne, h1, h2, h3, h4, h5⟩ := hp
      rw [Finset.mem_erase]
      constructor
      · intro e
        apply hne
        have e1 : ((i : Int) + p.1).toNat = i := congrArg Prod.fst e
        have e2 : ((j : Int) + p.2).toNat = j := congrArg Prod.snd e
        exact Prod.ext (by show p.1 = 0; omega) (by show p.2 = 0; omega)
      · unfold live_cells
        rw [Finset.mem_filter, Finset.mem_product, Finset.mem_range, Finset.mem_range]
        exact ⟨⟨by show ((i : Int) + p.1).toNat < rows grid; omega,
          by show ((j : Int) + p.2).toNat < cols grid; omega⟩, h5⟩
    · intro p hp q hq e
      have hp2 := (Finset.mem_filter.1 (Finset.mem_coe.1 hp)).2.2
      have hq2 := (Finset.mem_filter.1 (Finset.mem_coe.1 hq)).2.2
      obtain ⟨p1, _, p3, _, _⟩ := hp2
      obtain ⟨q1, _, q3, _, _⟩ := hq2
      have e1 : ((i : Int) + p.1).toNat = ((i : Int) + q.1).toNat := congrArg Prod.fst e
      have e2 : ((j : Int) + p.2).toNat = ((j : Int) + q.2).toNat := congrArg Prod.snd e
      exact Prod.ext (by omega) (by omega)
  by_cases hc : get2 grid i j = some true
  · have hmem : (i, j) ∈ live_cells grid := by
      obtain ⟨hi, hj⟩ := bounds_of_get2 (rect_of_valid h) hc
      unfold live_cells
      rw [Finset.mem_filter, Finset.mem_product, Finset.mem_range, Finset.mem_range]
      exact ⟨⟨hi, hj⟩, hc⟩
    have hpos : 0 < (live_cells grid).card := Finset.card_pos.2 ⟨_, hmem⟩
    rw [Finset.card_erase_of_mem hmem] at hle
    rw [if_pos hc]
    omega
  · rw [if_neg hc]
    exact Nat.le_trans hle (Finset.card_erase_le)

/-- A cell of a valid grid with at most two live cells is dead in the next
generation of the transition rule. -/
theorem rule_of_card_le_two {grid : Grid} (h : valid grid) (hfew : (live_cells grid).card ≤ 2)
    (i j : Nat) : rule (live_neighbours grid i j) ((get2 grid i j).getD false) = false := by
  have hle := live_neighbours_add_self_le h i j
  rw [rule_eq]
  by_cases h3 : live_neighbours grid i j = 3
  · omega
  · rw [if_neg h3]
    by_cases h2 : live_neighbours grid i j = 2
    · rw [if_pos h2]
      cases hg : get2 grid i j with
      | none => rfl
      | some v =>
        cases v with
        | false => rfl
        | true =>
          rw [hg, if_pos rfl] at hle
          omega
    · rw [if_neg h2]

/-! ## The claims -/

/-- Claim C1 (fails on the code): on the valid 2 x 3 grid whose six cells are
alive, cell `(0, 2)` is alive and has 3 live neighbours, so the reference next
generation has it alive; `update_cells` returns a grid in which it is dead. -/
theorem update_cells_ne_reference_next_2x3 :
    valid [[true, true, true], [true, true, true]] ∧
    live_neighbours [[true, true, true], [true, true, true]] 0 2 = 3 ∧
    reference_next [[true, true, true], [true, true, true]] =
      [[true, false, true], [true, false, true]] ∧
    update_cells [[true, true, true], [true, true, true]] 0 =
      some ([[true, false, false], [true, false, false]], 1) := by
  decide

/-- Claim C2: on every valid grid `count_neighbors_num` returns a table whose
entry at every in-bounds cell `(i, j)` is the number of offsets `(k, l)` with
`k, l ∈ {-1, 0, 1}`, `(k, l) ≠ (0, 0)`, for which `(i + k, j + l)` lies inside
the grid and is alive. -/
theorem count_neighbors_num_eq_live_neighbours (grid : Grid) (h : valid grid) :
    ∃ neighbor_num, count_neighbors_num grid = some neighbor_num ∧
      ∀ i j, i < rows grid → j < cols grid →
        get2 neighbor_num i j = some (live_neighbours grid i j) := by
  obtain ⟨cnt, hc, _, hget⟩ := count_neighbors_num_valid h
  exact ⟨cnt, hc, hget⟩

/-- The statement of C2 at the valid 2 x 3 grid `101 / 011`. -/
theorem count_neighbors_num_eq_live_neighbours_witness :
    valid [[true, false, true], [false, true, true]] ∧
    ∃ neighbor_num,
      count_neighbors_num [[true, false, true], [false, true, true]] = some neighbor_num ∧
      ∀ i j, i < rows [[true, false, true], [false, true, true]] →
        j < cols [[true, false, true], [false, true, true]] →
        get2 neighbor_num i j =
          some (live_neighbours [[true, false, true], [false, true, true]] i j) :=
  ⟨by decide, count_neighbors_num_eq_live_neighbours _ (by decide)⟩

/-- Claim C3 (fails on the code): on the valid grid of 2 rows and 1 column
the neighbour counts are `[[0], [0]]`, the read `neighbor_num[0][1]` is out of
range, and `update_cells` takes the out-of-range branch. -/
theorem update_cells_out_of_range_2x1 :
    valid [[false], [false]] ∧
    count_neighbors_num [[false], [false]] = some [[0], [0]] ∧
    get2 [[0], [0]] 0 1 = (none : Option Nat) ∧
    update_cells [[false], [false]] 0 = none := by
  decide

/-- Claim C4 (fails on the code): in the grid of 4 rows and 5 columns whose
live cells are the block `(1, 3), (1, 4), (2, 3), (2, 4)`, `update_cells`
leaves only `(1, 3)` and `(2, 3)` alive, so the grid is changed. -/
theorem update_cells_block_4x5 :
    update_cells (read_cells_grid_from_file ["00000", "00011", "00011", "00000"]) 0 =
      some (read_cells_grid_from_file ["00000", "00010", "00010", "00000"], 1) ∧
    read_cells_grid_from_file ["00000", "00010", "00010", "00000"] ≠
      read_cells_grid_from_file ["00000", "00011", "00011", "00000"] := by
  decide

/-- Claim C5 (fails on the code): in the grid of 5 rows and 7 columns whose
live cells are the horizontal blinker `(2, 4), (2, 5), (2, 6)`, one
`update_cells` call yields the dead grid, not the vertical line
`(1, 5), (2, 5), (3, 5)` of the reference next generation. -/
theorem update_cells_blinker_5x7 :
    update_cells (read_cells_grid_from_file
        ["0000000", "0000000", "0000111", "0000000", "0000000"]) 0 =
      some (read_cells_grid_from_file
        ["0000000", "0000000", "0000000", "0000000", "0000000"], 1) ∧
    reference_next (read_cells_grid_from_file
        ["0000000", "0000000", "0000111", "0000000", "0000000"]) =
      read_cells_grid_from_file
        ["0000000", "0000010", "0000010", "0000010", "0000000"] := by
  decide

/-- Claim C6 (fails on the code): the grid of 2 rows and 1 column with both
cells dead is valid and dead, and one `update_cells` call on it takes the
out-of-range branch, so no grid is obtained after 1 update. -/
theorem update_n_dead_2x1 :
    valid [[false], [false]] ∧ all_dead [[false], [false]] ∧
    (all_cells_dead [[false], [false]] 0).1 = true ∧
    update_n 1 [[false], [false]] 0 = none := by
  decide

/-- Claim C7: for every grid, empty and jagged ones included, `all_cells_dead`
returns `true` if and only if every cell of every row is `false`. -/
theorem all_cells_dead_iff (grid : Grid) (g_timestep : Int) :
    (all_cells_dead grid g_timestep).1 = true ↔ ∀ row ∈ grid, ∀ cell ∈ row, cell = false :=
  all_cells_dead_eq_true grid g_timestep

/-- Claim C8 (fails as stated): `read_cells_grid_from_file` returns the empty
grid for no lines, and a jagged grid with rows of length 3, 3, 2 for the lines
`111`, `111`, `11`; neither is a valid grid. -/
theorem read_cells_grid_from_file_accepts_malformed :
    read_cells_grid_from_file [] = [] ∧ ¬ valid (read_cells_grid_from_file []) ∧
    read_cells_grid_from_file ["111", "111", "11"] =
      [[true, true, true], [true, true, true], [true, true]] ∧
    ¬ valid (read_cells_grid_from_file ["111", "111", "11"]) := by
  decide

/-- Claim C8 (amended): `read_cells_grid_from_file` does no validation. For
every list of lines it returns a grid with one row per line, row `i` having as
many cells as line `i` has `0`/`1` characters; the returned grid is valid
exactly when there is at least one line, the first line has at least one
`0`/`1` character and every line has as many `0`/`1` characters as the first. -/
theorem read_cells_grid_from_file_unchecked (lines : List String) :
    (read_cells_grid_from_file lines).map List.length = lines.map digit_count ∧
    (valid (read_cells_grid_from_file lines) ↔
      lines ≠ [] ∧ 0 < digit_count (lines.headD "") ∧
        ∀ line ∈ lines, digit_count line = digit_count (lines.headD "")) :=
  ⟨map_length_read_cells_grid_from_file lines, valid_read_cells_grid_from_file_iff lines⟩

/-- Claim C9 (fails on the code): started on the 2 x 2 grid of live cells,
which every update leaves unchanged, `main` displays the grid with time step 0
after 0 updates, with time step 2 after 1 update and with time step 4 after 2
updates. -/
theorem main_timestep_2x2 :
    main 3 ["11", "11"] =
      [(Output.cells 0 [[true, true], [true, true]], 0),
       (Output.cells 2 [[true, true], [true, true]], 1),
       (Output.cells 4 [[true, true], [true, true]], 2)] := by
  decide

/-- Claim C10 (fails on the code): on the valid grid of 2 rows and 1 column
with cells alive, dead and the counter at 7, `update_cells` takes the
out-of-range branch: the call yields no state with the counter at 8. -/
theorem update_cells_counter_2x1 :
    valid [[true], [false]] ∧ update_cells [[true], [false]] 7 = none ∧
    ¬ ∃ new_grid, update_cells [[true], [false]] 7 = some (new_grid, 8) := by
  refine ⟨by decide, by decide, ?_⟩
  rintro ⟨g, hg⟩
  have h : update_cells [[true], [false]] 7 = none := by decide
  rw [h] at hg
  exact Option.noConfusion hg

/-- Claim C11: for every list of lines `read_cells_grid_from_file` returns one
row per line, row `i` being line `i` with every character other than `0` and
`1` dropped and `0`, `1` mapped to dead, alive in order; the length of each row
is the number of `0`/`1` characters of its line. -/
theorem read_cells_grid_from_file_eq_rows (lines : List String) :
    read_cells_grid_from_file lines = lines.map row_of_line ∧
    (read_cells_grid_from_file lines).length = lines.length ∧
    (read_cells_grid_from_file lines).map List.length = lines.map digit_count := by
  have h : read_cells_grid_from_file lines = lines.map row_of_line := by
    rw [read_cells_grid_from_file_eq_map]
    apply List.map_congr_left
    intro line _
    exact foldl_read_char_eq_row_of_line line
  refine ⟨h, ?_, map_length_read_cells_grid_from_file lines⟩
  rw [h, List.length_map]

/-- Claim C12: on every valid grid with `R` rows and `C` columns
`count_neighbors_num` returns a table of exactly `R` rows, each of exactly `C`
entries, and every entry `v` satisfies `0 ≤ v ≤ 8`. -/
theorem count_neighbors_num_shape_and_range (grid : Grid) (h : valid grid) :
    ∃ neighbor_num, count_neighbors_num grid = some neighbor_num ∧
      neighbor_num.length = rows grid ∧
      ∀ row ∈ neighbor_num, row.length = cols grid ∧ ∀ v ∈ row, 0 ≤ v ∧ v ≤ 8 := by
  obtain ⟨cnt, hc, hrect, hget⟩ := count_neighbors_num_valid h
  refine ⟨cnt, hc, hrect.1, ?_⟩
  intro row hrow
  refine ⟨hrect.2 row hrow, ?_⟩
  intro v hv
  obtain ⟨i, j, hi, hj, hij⟩ := get2_of_mem hrect hrow hv
  rw [hget i j hi hj] at hij
  have hv2 : live_neighbours grid i j = v := Option.some.inj hij
  rw [← hv2]
  exact ⟨Nat.zero_le _, live_neighbours_le_eight grid i j⟩

/-- The statement of C12 at the valid 2 x 3 grid `111 / 111`. -/
theorem count_neighbors_num_shape_and_range_witness :
    valid [[true, true, true], [true, true, true]] ∧
    ∃ neighbor_num,
      count_neighbors_num [[true, true, true], [true, true, true]] = some neighbor_num ∧
      neighbor_num.length = rows [[true, true, true], [true, true, true]] ∧
      ∀ row ∈ neighbor_num, row.length = cols [[true, true, true], [true, true, true]] ∧
        ∀ v ∈ row, 0 ≤ v ∧ v ≤ 8 :=
  ⟨by decide, count_neighbors_num_shape_and_range _ (by decide)⟩

/-- Claim C14: on every valid grid `count_neighbors_num` is total. For every
cell, offset and running count the body of its loops returns a count, so the
access `grid[row_index][column_index]` behind the bounds check is in range, and
the call returns a table. The grid is an argument that is only read. -/
theorem count_neighbors_num_total (grid : Grid) (h : valid grid) :
    (∀ (i j : Nat) (k l : Int) (cnt : Nat),
      ∃ cnt1, count_step grid (rows grid) (cols grid) i j k l cnt = some cnt1) ∧
    (∀ i j, ∃ cnt, neighbor_count grid (rows grid) (cols grid) i j = some cnt) ∧
    ∃ neighbor_num, count_neighbors_num grid = some neighbor_num := by
  refine ⟨fun i j k l cnt => ⟨_, count_step_valid h i j k l cnt⟩,
    fun i j => ⟨_, neighbor_count_valid h i j⟩, ?_⟩
  obtain ⟨cnt, hc, _, _⟩ := count_neighbors_num_valid h
  exact ⟨cnt, hc⟩

/-- The statement of C14 at the valid 3 x 2 grid `10 / 01 / 11`. -/
theorem count_neighbors_num_total_witness :
    valid [[true, false], [false, true], [true, true]] ∧
    ((∀ (i j : Nat) (k l : Int) (cnt : Nat),
      ∃ cnt1, count_step [[true, false], [false, true], [true, true]]
        (rows [[true, false], [false, true], [true, true]])
        (cols [[true, false], [false, true], [true, true]]) i j k l cnt = some cnt1) ∧
    (∀ i j, ∃ cnt, neighbor_count [[true, false], [false, true], [true, true]]
        (rows [[true, false], [false, true], [true, true]])
        (cols [[true, false], [false, true], [true, true]]) i j = some cnt) ∧
    ∃ neighbor_num,
      count_neighbors_num [[true, false], [false, true], [true, true]] = some neighbor_num) :=
  ⟨by decide, count_neighbors_num_total _ (by decide)⟩

/-- Claim C15: for every 1 x 1 grid, with its cell alive or dead,
`count_neighbors_num` returns the 1 x 1 table containing 0, and one
`update_cells` call leaves the single cell dead. -/
theorem count_neighbors_num_1x1 (cell : Bool) (t : Int) :
    count_neighbors_num [[cell]] = some [[0]] ∧
    update_cells [[cell]] t = some ([[false]], t + 1) := by
  cases cell <;> exact ⟨by decide, rfl⟩

/-- Claim C16 (fails on the code): the grid of 3 rows and 2 columns
`11 / 11 / 00` is valid, and `update_cells` takes the out-of-range branch on
it, so no grid of 3 rows and 2 columns is left. -/
theorem update_cells_shape_3x2 :
    valid [[true, true], [true, true], [false, false]] ∧
    update_cells [[true, true], [true, true], [false, false]] 0 = none := by
  decide

/-- Claim C17: on every square valid grid (`N` rows and `N` columns, `N ≥ 1`)
`update_cells` succeeds, so every access is in bounds, and the grid it leaves
is the reference next generation: with `count = count_neighbors_num(old)`,
`new[i][j] = (count[i][j] == 3) or (count[i][j] == 2 and old[i][j])` for all
`i, j < N`. -/
theorem update_cells_square (grid : Grid) (h : valid grid) (hsq : rows grid = cols grid)
    (t : Int) :
    ∃ neighbor_num new_grid, count_neighbors_num grid = some neighbor_num ∧
      update_cells grid t = some (new_grid, t + 1) ∧
      new_grid = reference_next grid ∧
      ∀ i j, i < rows grid → j < rows grid →
        ∃ count old, get2 neighbor_num i j = some count ∧ get2 grid i j = some old ∧
          get2 new_grid i j = some (count == 3 || (count == 2 && old)) := by
  obtain ⟨cnt, hc, _, hcnt⟩ := count_neighbors_num_valid h
  obtain ⟨new_grid, hnew, hrect, hget⟩ := update_cells_of_le h (by omega) t
  refine ⟨cnt, new_grid, hc, hnew, ?_, ?_⟩
  · apply rect_ext hrect (rect_table _ _ _)
    intro p q hp hq
    rw [hget p q hp hq, if_pos (by omega)]
    exact (get2_table (rows grid) (cols grid)
      (fun i j => rule (live_neighbours grid i j) ((get2 grid i j).getD false)) hp hq).symm
  · intro i j hi hj
    have hj2 : j < cols grid := by omega
    obtain ⟨old, hold⟩ := get2_eq_some_getD (rect_of_valid h) hi hj2
    refine ⟨live_neighbours grid i j, old, hcnt i j hi hj2, hold, ?_⟩
    rw [hget i j hi hj2, if_pos hj, hold]
    rfl

/-- The statement of C17 at the 3 x 3 grid `010 / 010 / 010` with counter 0. -/
theorem update_cells_square_witness :
    valid [[false, true, false], [false, true, false], [false, true, false]] ∧
    rows [[false, true, false], [false, true, false], [false, true, false]] =
      cols [[false, true, false], [false, true, false], [false, true, false]] ∧
    ∃ neighbor_num new_grid,
      count_neighbors_num [[false, true, false], [false, true, false], [false, true, false]]
        = some neighbor_num ∧
      update_cells [[false, true, false], [false, true, false], [false, true, false]] 0
        = some (new_grid, 0 + 1) ∧
      new_grid =
        reference_next [[false, true, false], [false, true, false], [false, true, false]] ∧
      ∀ i j, i < rows [[false, true, false], [false, true, false], [false, true, false]] →
        j < rows [[false, true, false], [false, true, false], [false, true, false]] →
        ∃ count old, get2 neighbor_num i j = some count ∧
          get2 [[false, true, false], [false, true, false], [false, true, false]] i j
            = some old ∧
          get2 new_grid i j = some (count == 3 || (count == 2 && old)) :=
  ⟨by decide, by decide, update_cells_square _ (by decide) (by decide) 0⟩

/-- Claim C18: on every valid grid with more columns than rows `update_cells`
succeeds and leaves every cell in a column `j ≥ rows` dead, whatever the old
grid, while the cells in the columns `j < rows` follow the transition rule on
the old grid. -/
theorem update_cells_wide (grid : Grid) (h : valid grid) (hwide : rows grid < cols grid)
    (t : Int) :
    ∃ new_grid, update_cells grid t = some (new_grid, t + 1) ∧
      ∀ i j, i < rows grid → j < cols grid →
        (rows grid ≤ j → get2 new_grid i j = some false) ∧
        (j < rows grid → get2 new_grid i j =
          some (rule (live_neighbours grid i j) ((get2 grid i j).getD false))) := by
  obtain ⟨new_grid, hnew, _, hget⟩ := update_cells_of_le h (by omega) t
  refine ⟨new_grid, hnew, ?_⟩
  intro i j hi hj
  constructor
  · intro hge
    rw [hget i j hi hj, if_neg (by omega)]
  · intro hlt
    rw [hget i j hi hj, if_pos hlt]

/-- The statement of C18 at the 2 x 3 grid `111 / 111` with counter 0. -/
theorem update_cells_wide_witness :
    valid [[true, true, true], [true, true, true]] ∧
    rows [[true, true, true], [true, true, true]] <
      cols [[true, true, true], [true, true, true]] ∧
    ∃ new_grid,
      update_cells [[true, true, true], [true, true, true]] 0 = some (new_grid, 0 + 1) ∧
      ∀ i j, i < rows [[true, true, true], [true, true, true]] →
        j < cols [[true, true, true], [true, true, true]] →
        (rows [[true, true, true], [true, true, true]] ≤ j →
          get2 new_grid i j = some false) ∧
        (j < rows [[true, true, true], [true, true, true]] → get2 new_grid i j =
          some (rule (live_neighbours [[true, true, true], [true, true, true]] i j)
            ((get2 [[true, true, true], [true, true, true]] i j).getD false))) :=
  ⟨by decide, by decide, update_cells_wide _ (by decide) (by decide) 0⟩

/-- Claim C13: on every valid grid with at least 2 rows and at least 2 columns
the number of neighbour offsets that pass the bounds check of
`count_neighbors_num` is at most 3 at each corner cell, at most 5 at every
border cell that is not a corner and exactly 8 at every interior cell;
consequently the returned count is at most 3 at the corners and at most 5 at
the other border cells, whatever the liveness pattern. -/
theorem in_bounds_checks_corner_border_interior (grid : Grid) (h : valid grid)
    (hR : 2 ≤ rows grid) (hC : 2 ≤ cols grid) :
    ∃ neighbor_num, count_neighbors_num grid = some neighbor_num ∧
      ∀ i j, i < rows grid → j < cols grid →
        (is_corner (rows grid) (cols grid) i j →
          in_bounds_checks (rows grid) (cols grid) i j ≤ 3) ∧
        (is_border (rows grid) (cols grid) i j → ¬ is_corner (rows grid) (cols grid) i j →
          in_bounds_checks (rows grid) (cols grid) i j ≤ 5) ∧
        (¬ is_border (rows grid) (cols grid) i j →
          in_bounds_checks (rows grid) (cols grid) i j = 8) ∧
        ∃ count, get2 neighbor_num i j = some count ∧
          count ≤ in_bounds_checks (rows grid) (cols grid) i j ∧
          (is_corner (rows grid) (cols grid) i j → count ≤ 3) ∧
          (is_border (rows grid) (cols grid) i j → ¬ is_corner (rows grid) (cols grid) i j →
            count ≤ 5) := by
  obtain ⟨cnt, hc, _, hget⟩ := count_neighbors_num_valid h
  refine ⟨cnt, hc, ?_⟩
  intro i j hi hj
  obtain ⟨v1, v2, v3⟩ := in_bounds_checks_values hR hC hi hj
  have hle := live_neighbours_le_in_bounds_checks grid i j
  refine ⟨fun hh => Nat.le_of_eq (v1 hh), fun hb hn => Nat.le_of_eq (v2 hb hn), v3,
    live_neighbours grid i j, hget i j hi hj, hle, ?_, ?_⟩
  · intro hh
    rw [v1 hh] at hle
    exact hle
  · intro hb hn
    rw [v2 hb hn] at hle
    exact hle

/-- The statement of C13 at the valid 3 x 3 grid `111 / 111 / 111`. -/
theorem in_bounds_checks_corner_border_interior_witness :
    valid [[true, true, true], [true, true, true], [true, true, true]] ∧
    2 ≤ rows [[true, true, true], [true, true, true], [true, true, true]] ∧
    2 ≤ cols [[true, true, true], [true, true, true], [true, true, true]] ∧
    ∃ neighbor_num,
      count_neighbors_num [[true, true, true], [true, true, true], [true, true, true]]
        = some neighbor_num ∧
      ∀ i j, i < rows [[true, true, true], [true, true, true], [true, true, true]] →
        j < cols [[true, true, true], [true, true, true], [true, true, true]] →
        (is_corner (rows [[true, true, true], [true, true, true], [true, true, true]])
            (cols [[true, true, true], [true, true, true], [true, true, true]]) i j →
          in_bounds_checks (rows [[true, true, true], [true, true, true], [true, true, true]])
            (cols [[true, true, true], [true, true, true], [true, true, true]]) i j ≤ 3) ∧
        (is_border (rows [[true, true, true], [true, true, true], [true, true, true]])
            (cols [[true, true, true], [true, true, true], [true, true, true]]) i j →
          ¬ is_corner (rows [[true, true, true], [true, true, true], [true, true, true]])
            (cols [[true, true, true], [true, true, true], [true, true, true]]) i j →
          in_bounds_checks (rows [[true, true, true], [true, true, true], [true, true, true]])
            (cols [[true, true, true], [true, true, true], [true, true, true]]) i j ≤ 5) ∧
        (¬ is_border (rows [[true, true, true], [true, true, true], [true, true, true]])
            (cols [[true, true, true], [true, true, true], [true, true, true]]) i j →
          in_bounds_checks (rows [[true, true, true], [true, true, true], [true, true, true]])
            (cols [[true, true, true], [true, true, true], [true, true, true]]) i j = 8) ∧
        ∃ count, get2 neighbor_num i j = some count ∧
          count ≤ in_bounds_checks
            (rows [[true, true, true], [true, true, true], [true, true, true]])
            (cols [[true, true, true], [true, true, true], [true, true, true]]) i j ∧
          (is_corner (rows [[true, true, true], [true, true, true], [true, true, true]])
            (cols [[true, true, true], [true, true, true], [true, true, true]]) i j →
            count ≤ 3) ∧
          (is_border (rows [[true, true, true], [true, true, true], [true, true, true]])
            (cols [[true, true, true], [true, true, true], [true, true, true]]) i j →
            ¬ is_corner (rows [[true, true, true], [true, true, true], [true, true, true]])
              (cols [[true, true, true], [true, true, true], [true, true, true]]) i j →
            count ≤ 5) :=
  ⟨by decide, by decide, by decide,
    in_bounds_checks_corner_border_interior _ (by decide) (by decide) (by decide)⟩

/-- Claim C19: neighbour counting commutes with transposition. For every valid
grid `g`, `count_neighbors_num (transpose g)` is the transpose of
`count_neighbors_num g`: for all in-bounds `(i, j)` the count of cell `(j, i)`
in the transposed grid is the count of cell `(i, j)` in `g`. -/
theorem count_neighbors_num_transpose (grid : Grid) (h : valid grid) :
    ∃ neighbor_num neighbor_num_t, count_neighbors_num grid = some neighbor_num ∧
      count_neighbors_num (transpose grid) = some neighbor_num_t ∧
      neighbor_num_t = transpose neighbor_num ∧
      ∀ i j, i < rows grid → j < cols grid →
        get2 neighbor_num_t j i = get2 neighbor_num i j := by
  obtain ⟨cnt, hc, hrect, hget⟩ := count_neighbors_num_valid h
  obtain ⟨hr, hcl, hvt⟩ := valid_transpose h
  obtain ⟨cntT, hcT, hrectT, hgetT⟩ := count_neighbors_num_valid hvt
  rw [hr, hcl] at hrectT
  have hpoint : ∀ i j, i < rows grid → j < cols grid →
      get2 cntT j i = get2 cnt i j := by
    intro i j hi hj
    rw [hgetT j i (by omega) (by omega), hget i j hi hj, live_neighbours_transpose h]
  refine ⟨cnt, cntT, hc, hcT, ?_, hpoint⟩
  apply rect_ext hrectT (rect_transpose hrect h.1)
  intro p q hp hq
  rw [get2_transpose hrect hq hp]
  exact hpoint q p hq hp

/-- The statement of C19 at the valid 2 x 3 grid `101 / 001`. -/
theorem count_neighbors_num_transpose_witness :
    valid [[true, false, true], [false, false, true]] ∧
    ∃ neighbor_num neighbor_num_t,
      count_neighbors_num [[true, false, true], [false, false, true]] = some neighbor_num ∧
      count_neighbors_num (transpose [[true, false, true], [false, false, true]])
        = some neighbor_num_t ∧
      neighbor_num_t = transpose neighbor_num ∧
      ∀ i j, i < rows [[true, false, true], [false, false, true]] →
        j < cols [[true, false, true], [false, false, true]] →
        get2 neighbor_num_t j i = get2 neighbor_num i j :=
  ⟨by decide, count_neighbors_num_transpose _ (by decide)⟩

/-- Claim C20: on every square valid grid with at most two live cells one
`update_cells` call leaves a grid in which every cell is dead, so
`all_cells_dead` returns `true` after the first update. -/
theorem update_cells_few_live (grid : Grid) (h : valid grid) (hsq : rows grid = cols grid)
    (hfew : (live_cells grid).card ≤ 2) (t : Int) :
    ∃ new_grid, update_cells grid t = some (new_grid, t + 1) ∧ all_dead new_grid ∧
      (all_cells_dead new_grid (t + 1)).1 = true := by
  obtain ⟨new_grid, hnew, hrect, hget⟩ := update_cells_of_le h (by omega) t
  have hdead : all_dead new_grid := by
    intro row hrow cell hcell
    obtain ⟨p, q, hp, hq, hpq⟩ := get2_of_mem hrect hrow hcell
    rw [hget p q hp hq, if_pos (by omega), rule_of_card_le_two h hfew] at hpq
    exact (Option.some.inj hpq).symm
  exact ⟨new_grid, hnew, hdead, (all_cells_dead_eq_true new_grid _).2 hdead⟩

/-- The statement of C20 at the 3 x 3 grid `110 / 000 / 000` with counter 0. -/
theorem update_cells_few_live_witness :
    valid [[true, true, false], [false, false, false], [false, false, false]] ∧
    rows [[true, true, false], [false, false, false], [false, false, false]] =
      cols [[true, true, false], [false, false, false], [false, false, false]] ∧
    (live_cells [[true, true, false], [false, false, false], [false, false, false]]).card
      ≤ 2 ∧
    ∃ new_grid,
      update_cells [[true, true, false], [false, false, false], [false, false, false]] 0
        = some (new_grid, 0 + 1) ∧
      all_dead new_grid ∧ (all_cells_dead new_grid (0 + 1)).1 = true :=
  ⟨by decide, by decide, by decide,
    update_cells_few_live _ (by decide) (by decide) (by decide) 0⟩

end GameOfLife
